import Mathlib

/-!
Verification development for the kops clientset secret store
(`upup/pkg/fi/secrets/clientset_secretstore.go`).

The Go code is shallowly embedded: Go strings are lists of characters, byte
slices are lists of naturals, the backing Keyset store (the clientset) is a
list of keysets, and every fallible Go call returns `Except GoError`.
Two views of `GetOrCreateSecret` are given:

* a state-based view (`Kops.GetOrCreateSecret`) in which the store replies
  deterministically from its current contents — used for sequential,
  end-to-end executions; and
* a reply-driven view (`Kops.GetOrCreateSecretR`) in which the replies of the
  five possible store calls (two finds, two creates, the final re-read) are
  explicit parameters — used for error paths and interleavings with
  concurrent writers.
-/

namespace Kops

/-- Go strings, modelled as lists of characters. -/
abbrev Str := List Char

/-- Go byte slices, modelled as lists of naturals. -/
abbrev Bytes := List Nat

/-- `NamePrefix` from clientset_secretstore.go: the prefix used to avoid
collisions with other keysets ("token-"). -/
def NamePrefix : Str := "token-".toList

/-- `kops.KeysetType`: the type discriminator of a keyset record. -/
inductive KeysetType where
  | SecretTypeSecret
  | SecretTypeKeypair
deriving DecidableEq, Repr

/-- `kops.KeysetItem`: one key-material entry of a keyset. -/
structure KeysetItem where
  id : Str
  privateMaterial : Bytes
deriving DecidableEq, Repr

/-- `kops.Keyset`, flattened: `Name`, `Spec.Type` and `Spec.Keys`. -/
structure Keyset where
  name : Str
  specType : KeysetType
  keys : List KeysetItem
deriving DecidableEq, Repr

/-- `fi.Secret`: an opaque byte payload. -/
structure Secret where
  data : Bytes
deriving DecidableEq, Repr

/-- Go errors, as the secret store distinguishes them: the api-machinery
statuses recognised by `errors.IsNotFound` / `errors.IsAlreadyExists`, and
plain errors (e.g. built by `fmt.Errorf`, which erases the api status). -/
inductive GoError where
  | apiNotFound
  | apiAlreadyExists
  | plain (msg : String)
deriving DecidableEq, Repr

/-- `errors.IsNotFound`. -/
def isNotFound : GoError → Bool
  | .apiNotFound => true
  | _ => false

/-- `errors.IsAlreadyExists`. -/
def isAlreadyExists : GoError → Bool
  | .apiAlreadyExists => true
  | _ => false

/-- The backing store for one namespace: the keysets it currently holds. -/
abbrev Store := List Keyset

/-- Modelled from the spec: the resource-store client's
`Get(namespace, name)` — returns the record, or a NotFound error when no
record with that name exists. -/
def storeGet (st : Store) (name : Str) : Except GoError Keyset :=
  match st.find? (fun ks => decide (ks.name = name)) with
  | some ks => .ok ks
  | none => .error .apiNotFound

/-- Modelled from the spec: the resource-store client's
`Create(namespace, record)` — create-if-absent; fails with an AlreadyExists
error (never overwrites) when a record with the same name exists. -/
def storeCreate (st : Store) (ks : Keyset) : Except GoError (Keyset × Store) :=
  if st.any (fun k => decide (k.name = ks.name)) then .error .apiAlreadyExists
  else .ok (ks, st ++ [ks])

/-- Go's `strings.TrimPrefix`: drops the prefix when present, otherwise
returns the string unchanged. -/
def trimPrefix (s pfx : Str) : Str :=
  if pfx.isPrefixOf s then s.drop pfx.length else s

/-- Modelled from the spec: `fi.FindPrimary` (not under src/) selects the
primary entry of a keyset by a fixed deterministic rule shared with
certificate/keypair records, and is absent when the keyset has no entries;
following the spec's "first entry" rule we take the head of the entry list. -/
def FindPrimary (ks : Keyset) : Option KeysetItem :=
  ks.keys.head?

/-- `parseSecret`: project the primary entry's payload into a Secret; yields
`none` (Go: `nil, nil` — not an error) when no primary exists. -/
def parseSecret (ks : Keyset) : Option Secret :=
  (FindPrimary ks).map (fun item => ⟨item.privateMaterial⟩)

/-- Modelled from the spec: `pki.BuildPKISerial` (not under src/) converts a
nanosecond-epoch timestamp into a PKI-style serial that is locally unique
with overwhelming probability; we model it as the timestamp shifted into the
high bits joined with a bounded random low component `r`. -/
def BuildPKISerial (t : Int) (r : Nat) : Int :=
  t * (2 ^ 32) + ((r % 2 ^ 32 : Nat) : Int)

/-- The decimal rendering `big.Int.String()` of a serial. -/
def serialString (n : Int) : Str := (toString n).toList

/-- `loadSecret`, given the store's reply to its single `Get` call: a
NotFound reply becomes `(nil, nil)`; any other error is wrapped by
`fmt.Errorf` into a plain error; a record is parsed for its primary. -/
def loadSecretR (reply : Except GoError Keyset) : Except GoError (Option Secret) :=
  match reply with
  | .error e =>
      if isNotFound e then .ok none
      else .error (.plain "error reading keyset")
  | .ok keyset => .ok (parseSecret keyset)

/-- `loadSecret` against the store state: prefixes the name and issues the
`Get`. -/
def loadSecret (st : Store) (name : Str) : Except GoError (Option Secret) :=
  loadSecretR (storeGet st (NamePrefix ++ name))

/-- `FindSecret`: forwards `loadSecret`'s result verbatim. -/
def FindSecret (st : Store) (name : Str) : Except GoError (Option Secret) :=
  loadSecret st name

/-- `FindSecret`, given the store's reply to the underlying `Get`. -/
def FindSecretR (reply : Except GoError Keyset) : Except GoError (Option Secret) :=
  loadSecretR reply

/-- The `Secret` method (the strict accessor), against the store state:
errors propagate; an absent result becomes the error `Secret not found`.
The Go pair `(*fi.Secret, error)` is modelled as `Option Secret × Option GoError`. -/
def SecretOp (st : Store) (name : Str) : Option Secret × Option GoError :=
  match FindSecret st name with
  | .error e => (none, some e)
  | .ok none => (none, some (.plain "Secret not found"))
  | .ok (some s) => (some s, none)

/-- The `Secret` method, given the store's reply to the underlying `Get`. -/
def SecretR (reply : Except GoError Keyset) : Option Secret × Option GoError :=
  match FindSecretR reply with
  | .error e => (none, some e)
  | .ok none => (none, some (.plain "Secret not found"))
  | .ok (some s) => (some s, none)

/-- `ListSecrets`: list the namespace, keep the keysets whose type is
`SecretTypeSecret`, and strip the internal name prefix. (The deterministic
store's `List` cannot fail, so the error branch is not represented.) -/
def ListSecrets (st : Store) : List Str :=
  st.filterMap (fun keyset =>
    match keyset.specType with
    | .SecretTypeSecret => some (trimPrefix keyset.name NamePrefix)
    | _ => none)

/-- The keyset `createSecret` builds: prefixed name, secret type, and a
single entry whose id is the PKI serial of the timestamp `t` (randomness
`r`) and whose material is the secret's payload. -/
def newKeyset (name : Str) (s : Secret) (t : Int) (r : Nat) : Keyset :=
  { name := NamePrefix ++ name
    specType := .SecretTypeSecret
    keys := [{ id := serialString (BuildPKISerial t r), privateMaterial := s.data }] }

/-- `createSecret`: build the keyset and submit it via the store's
create-if-absent primitive. -/
def createSecret (st : Store) (s : Secret) (name : Str) (t : Int) (r : Nat) :
    Except GoError (Keyset × Store) :=
  storeCreate st (newKeyset name s t r)

/-- The result of `GetOrCreateSecret` against the store state: the Go triple
`(*fi.Secret, bool, error)`, the `glog.Fatalf` marker of the post-create
re-read failure path, the final store contents, and how many `Create` calls
the run issued against the store. -/
structure GoCResultS where
  secret : Option Secret
  created : Bool
  err : Option GoError
  fatal : Bool
  store : Store
  creates : Nat
deriving DecidableEq, Repr

/-- The tail of `GetOrCreateSecret` after the loop breaks: the unconditional
re-read (`loadSecret`). On a read error the Go code calls `glog.Fatalf`
(process abort) and its dead `return` would surface the error; we keep both
the error and a `fatal` marker. Otherwise the re-read value is returned with
`created = true`. -/
def gocFinish (st : Store) (name : Str) (creates : Nat) : GoCResultS :=
  match loadSecret st name with
  | .error e => ⟨none, false, some e, true, st, creates⟩
  | .ok s => ⟨s, true, none, false, st, creates⟩

/-- `GetOrCreateSecret` against the store state, with the two-iteration loop
unrolled (`for i := 0; i < 2; i++`). `t1, r1` and `t2, r2` feed the id
generation of the first and second create attempt. An already-exists create
failure is retried (`continue`) only when `i == 0`; a successful create
breaks out to the re-read. -/
def GetOrCreateSecret (st : Store) (name : Str) (secret : Secret)
    (t1 : Int) (r1 : Nat) (t2 : Int) (r2 : Nat) : GoCResultS :=
  -- iteration i = 0
  match FindSecret st name with
  | .error e => ⟨none, false, some e, false, st, 0⟩
  | .ok (some s) => ⟨some s, false, none, false, st, 0⟩
  | .ok none =>
    match createSecret st secret name t1 r1 with
    | .ok (_, st1) => gocFinish st1 name 1
    | .error e =>
      if isAlreadyExists e then
        -- i == 0: log and continue; iteration i = 1 (a failed create left the
        -- store unchanged)
        match FindSecret st name with
        | .error e2 => ⟨none, false, some e2, false, st, 1⟩
        | .ok (some s) => ⟨some s, false, none, false, st, 1⟩
        | .ok none =>
          match createSecret st secret name t2 r2 with
          | .ok (_, st1) => gocFinish st1 name 2
          | .error e2 =>
            -- i == 1: even an already-exists conflict is returned
            ⟨none, false, some e2, false, st, 2⟩
      else ⟨none, false, some e, false, st, 1⟩

/-- Equality of store replies is decidable (so that concrete runs can be
evaluated by `decide`). -/
instance {ε α : Type} [DecidableEq ε] [DecidableEq α] : DecidableEq (Except ε α) :=
  fun a b =>
    match a, b with
    | .ok x, .ok y => decidable_of_iff (x = y) (by simp)
    | .error x, .error y => decidable_of_iff (x = y) (by simp)
    | .ok _, .error _ => isFalse (by simp)
    | .error _, .ok _ => isFalse (by simp)

/-- The store's replies to the (at most five) calls one `GetOrCreateSecret`
run can issue: the `Get` under `FindSecret` and the `Create` under
`createSecret` in each of the two loop iterations, and the `Get` under the
final re-read. Used to analyse error paths and runs interleaved with
concurrent writers. -/
structure Replies where
  get1 : Except GoError Keyset
  create1 : Except GoError Keyset
  get2 : Except GoError Keyset
  create2 : Except GoError Keyset
  getF : Except GoError Keyset
deriving DecidableEq, Repr

/-- The result of a reply-driven `GetOrCreateSecret` run: the Go triple, the
fatal marker, and how many `FindSecret` and `createSecret` calls the loop
performed. -/
structure GoCResultR where
  secret : Option Secret
  created : Bool
  err : Option GoError
  fatal : Bool
  finds : Nat
  creates : Nat
deriving DecidableEq, Repr

/-- The tail of the reply-driven `GetOrCreateSecret` after the loop breaks:
the unconditional re-read, fed by the `getF` reply. -/
def gocFinishR (rp : Replies) (finds creates : Nat) : GoCResultR :=
  match loadSecretR rp.getF with
  | .error e => ⟨none, false, some e, true, finds, creates⟩
  | .ok s => ⟨s, true, none, false, finds, creates⟩

/-- `GetOrCreateSecret`, driven by explicit store replies, with the
two-iteration loop unrolled exactly as in `GetOrCreateSecret`. -/
def GetOrCreateSecretR (rp : Replies) : GoCResultR :=
  -- iteration i = 0
  match loadSecretR rp.get1 with
  | .error e => ⟨none, false, some e, false, 1, 0⟩
  | .ok (some s) => ⟨some s, false, none, false, 1, 0⟩
  | .ok none =>
    match rp.create1 with
    | .ok _ => gocFinishR rp 1 1
    | .error e =>
      if isAlreadyExists e then
        -- i == 0: log and continue; iteration i = 1
        match loadSecretR rp.get2 with
        | .error e2 => ⟨none, false, some e2, false, 2, 1⟩
        | .ok (some s) => ⟨some s, false, none, false, 2, 1⟩
        | .ok none =>
          match rp.create2 with
          | .ok _ => gocFinishR rp 2 2
          | .error e2 => ⟨none, false, some e2, false, 2, 2⟩
      else ⟨none, false, some e, false, 1, 1⟩

/-- `fi.KeystoreItem`, as `DeleteSecret` consumes it: a record name and an
entry id. -/
structure KeystoreItem where
  name : Str
  id : Str
deriving DecidableEq, Repr

/-- Modelled from the spec: `fi.DeleteKeysetItem` (not under src/) — the
backing store's item-deletion primitive. It removes the entry identified by
record name, record/item type and entry id from its keyset: it fails when no
record with that name exists, when the record's type discriminator is not
the requested one (the type identifies the record kind within the shared
store), or when no entry carries the id; otherwise the entry is removed
(the record disappearing when it was the last entry). -/
def DeleteKeysetItem (st : Store) (name : Str) (itemType : KeysetType) (id : Str) :
    Except GoError Store :=
  match storeGet st name with
  | .error _ => .error (.plain "keyset not found")
  | .ok keyset =>
    if keyset.specType ≠ itemType then .error (.plain "mismatch on type of keyset")
    else if keyset.keys.all (fun ki => decide (ki.id ≠ id)) then
      .error (.plain "keyset item not found")
    else
      let remaining := keyset.keys.filter (fun ki => decide (ki.id ≠ id))
      if remaining.isEmpty then
        .ok (st.filter (fun ks => decide (ks.name ≠ name)))
      else
        .ok (st.map (fun ks =>
          if ks.name = name then { ks with keys := remaining } else ks))

/-- `DeleteSecret`: forwards to the item-deletion primitive with the item's
name verbatim (no `NamePrefix` is added) and — as written in the source —
the `SecretTypeKeypair` discriminator. -/
def DeleteSecret (st : Store) (item : KeystoreItem) : Except GoError Store :=
  DeleteKeysetItem st item.name .SecretTypeKeypair item.id

/-! Concrete inputs used by concrete runs and witnesses. -/

/-- A stored secret keyset for the logical name `foo`, one entry, payload `[1, 2]`. -/
def ksFoo : Keyset := ⟨"token-foo".toList, .SecretTypeSecret, [⟨"1".toList, [1, 2]⟩]⟩

/-- The record a concurrent winner substituted for `foo`: payload `[3, 4]`. -/
def ksBar : Keyset := ⟨"token-foo".toList, .SecretTypeSecret, [⟨"9".toList, [3, 4]⟩]⟩

/-- A stored secret keyset for `foo` with no entries (hence no primary). -/
def ksEmptyFoo : Keyset := ⟨"token-foo".toList, .SecretTypeSecret, []⟩

/-- A keypair-typed keyset sharing the namespace. -/
def ksKeypair : Keyset := ⟨"kp-ca".toList, .SecretTypeKeypair, [⟨"7".toList, [9]⟩]⟩

/-- Replies of a run whose two create attempts both hit an already-exists
conflict (two concurrent winners appearing and disappearing). -/
def rpConflictTwice : Replies :=
  ⟨.error .apiNotFound, .error .apiAlreadyExists,
   .error .apiNotFound, .error .apiAlreadyExists, .error .apiNotFound⟩

/-- Replies of a run whose create succeeds (payload `[1, 2]`) and whose
re-read observes the record a concurrent writer substituted in between
(payload `[3, 4]`). -/
def rpReread : Replies :=
  ⟨.error .apiNotFound, .ok ksFoo, .error .apiNotFound, .error .apiNotFound, .ok ksBar⟩

/-- Replies of a run whose create succeeds and whose re-read finds the
record gone again. -/
def rpRereadGone : Replies :=
  ⟨.error .apiNotFound, .ok ksFoo, .error .apiNotFound, .error .apiNotFound,
   .error .apiNotFound⟩

/-- Replies of a run whose create succeeds and whose re-read finds a record
with no primary entry. -/
def rpRereadEmpty : Replies :=
  ⟨.error .apiNotFound, .ok ksFoo, .error .apiNotFound, .error .apiNotFound,
   .ok ksEmptyFoo⟩

/-! Helper lemmas. -/

/-- Appending a matching element to a list `find?` misses makes it the hit. -/
theorem find?_concat_of_none {α : Type} (p : α → Bool) (l : List α) (x : α)
    (h : l.find? p = none) (hx : p x = true) : (l ++ [x]).find? p = some x := by
  rw [List.find?_append, h]
  simp [List.find?, hx]

/-- `trimPrefix` undoes prepending the same prefix. -/
theorem trimPrefix_append (p x : Str) : trimPrefix (p ++ x) p = x := by
  unfold trimPrefix
  rw [if_pos (List.isPrefixOf_iff_prefix.mpr (List.prefix_append p x))]
  exact List.drop_left p x

/-- A name absent from every keyset of the store makes `FindSecret` absent. -/
theorem findSecret_of_absent (st : Store) (name : Str)
    (h : st.find? (fun ks => decide (ks.name = NamePrefix ++ name)) = none) :
    FindSecret st name = Except.ok none := by
  simp [FindSecret, loadSecret, storeGet, h, loadSecretR, isNotFound]

/-- A keyset found under the prefixed name makes `FindSecret` parse it. -/
theorem findSecret_of_found (st : Store) (name : Str) (ks : Keyset)
    (h : st.find? (fun k => decide (k.name = NamePrefix ++ name)) = some ks) :
    FindSecret st name = Except.ok (parseSecret ks) := by
  simp [FindSecret, loadSecret, storeGet, h, loadSecretR]

/-- The reply-driven run issues at most two finds and two creates. -/
theorem gocR_bounded (rp : Replies) :
    (GetOrCreateSecretR rp).finds ≤ 2 ∧ (GetOrCreateSecretR rp).creates ≤ 2 := by
  unfold GetOrCreateSecretR gocFinishR
  repeat' split
  all_goals simp

/-! Claim theorems. -/

/-- C1: when `GetOrCreateSecret`'s create attempt fails with an
already-exists conflict on the first attempt, the run retries from the load
step exactly once more (a second `FindSecret` is issued); if on the second
attempt the record cannot be read, or cannot be created (including a second
already-exists conflict), that error is surfaced to the caller; and no run
ever issues more than two finds or two creates. -/
theorem getOrCreateSecret_conflict_retried_exactly_once (rp : Replies) (e : GoError)
    (h1 : loadSecretR rp.get1 = Except.ok none)
    (h2 : rp.create1 = Except.error e)
    (h3 : isAlreadyExists e = true) :
    (GetOrCreateSecretR rp).finds = 2 ∧
    (∀ e2, loadSecretR rp.get2 = Except.error e2 →
      GetOrCreateSecretR rp = ⟨none, false, some e2, false, 2, 1⟩) ∧
    (∀ e2, loadSecretR rp.get2 = Except.ok none → rp.create2 = Except.error e2 →
      GetOrCreateSecretR rp = ⟨none, false, some e2, false, 2, 2⟩) ∧
    (∀ rp' : Replies,
      (GetOrCreateSecretR rp').finds ≤ 2 ∧ (GetOrCreateSecretR rp').creates ≤ 2) := by
  refine ⟨?_, ?_, ?_, fun rp' => gocR_bounded rp'⟩
  · unfold GetOrCreateSecretR
    rw [h1, h2]
    simp only [h3, if_true]
    rcases hg : loadSecretR rp.get2 with e2 | s?
    · simp
    · rcases s? with _ | s
      · rcases hc : rp.create2 with e2 | ks
        · simp
        · simp [gocFinishR]
          rcases loadSecretR rp.getF with eF | sF <;> simp
      · simp
  · intro e2 hg
    unfold GetOrCreateSecretR
    rw [h1, h2]
    simp only [h3, if_true]
    rw [hg]
  · intro e2 hg hc
    unfold GetOrCreateSecretR
    rw [h1, h2]
    simp only [h3, if_true]
    rw [hg, hc]

/-- C1 witness: a concrete run in which both create attempts hit an
already-exists conflict performs exactly two finds and surfaces the second
conflict. -/
theorem getOrCreateSecret_conflict_retried_exactly_once_witness :
    (GetOrCreateSecretR rpConflictTwice).finds = 2 ∧
    GetOrCreateSecretR rpConflictTwice =
      ⟨none, false, some GoError.apiAlreadyExists, false, 2, 2⟩ := by
  have h := getOrCreateSecret_conflict_retried_exactly_once rpConflictTwice
    GoError.apiAlreadyExists rfl rfl rfl
  exact ⟨h.1, h.2.2.1 GoError.apiAlreadyExists rfl rfl⟩

/-- C3: whenever a create attempt of `GetOrCreateSecret` succeeds — on the
first attempt, or on the second after a tolerated conflict — the function
unconditionally re-reads the record and returns the re-read value together
with `created = true`. -/
theorem getOrCreateSecret_returns_reread (rp : Replies) (o : Option Secret)
    (hF : loadSecretR rp.getF = Except.ok o) :
    (∀ ks, loadSecretR rp.get1 = Except.ok none → rp.create1 = Except.ok ks →
      GetOrCreateSecretR rp = ⟨o, true, none, false, 1, 1⟩) ∧
    (∀ e ks, loadSecretR rp.get1 = Except.ok none → rp.create1 = Except.error e →
      isAlreadyExists e = true → loadSecretR rp.get2 = Except.ok none →
      rp.create2 = Except.ok ks →
      GetOrCreateSecretR rp = ⟨o, true, none, false, 2, 2⟩) := by
  constructor
  · intro ks h1 h2
    unfold GetOrCreateSecretR
    rw [h1, h2]
    simp [gocFinishR, hF]
  · intro e ks h1 h2 h3 hg hc
    unfold GetOrCreateSecretR
    rw [h1, h2]
    simp only [h3, if_true]
    rw [hg, hc]
    simp [gocFinishR, hF]

/-- C3 witness (a two-writer run): this caller's create wrote payload
`[1, 2]`, a concurrent writer's record with payload `[3, 4]` won by the time
of the re-read, and the caller returns the stored winner's payload — not its
own candidate — with `created = true`. -/
theorem getOrCreateSecret_returns_reread_witness :
    GetOrCreateSecretR rpReread =
      ⟨some ⟨[3, 4]⟩, true, none, false, 1, 1⟩ ∧
    (⟨[3, 4]⟩ : Secret) ≠ (⟨[1, 2]⟩ : Secret) := by
  exact ⟨(getOrCreateSecret_returns_reread rpReread (some ⟨[3, 4]⟩) rfl).1 ksFoo rfl rfl,
    by decide⟩

/-- C7: `DeleteSecret` cannot delete a stored secret entry. The store holds
the record for logical name `foo` (written by `createSecret` under
`token-foo` with type `SecretTypeSecret`), yet `DeleteSecret` fails whether
the keystore item carries the logical name (the record name is never
prefixed) or the internal name (the type discriminator passed is
`SecretTypeKeypair`), and `FindSecret` still returns the secret afterwards;
the deletion primitive invoked with the intended arguments would have
removed the record. -/
theorem deleteSecret_wrong_type_and_name :
    DeleteSecret [ksFoo] ⟨"foo".toList, "1".toList⟩ =
      Except.error (.plain "keyset not found") ∧
    DeleteSecret [ksFoo] ⟨"token-foo".toList, "1".toList⟩ =
      Except.error (.plain "mismatch on type of keyset") ∧
    FindSecret [ksFoo] "foo".toList = Except.ok (some ⟨[1, 2]⟩) ∧
    DeleteKeysetItem [ksFoo] "token-foo".toList KeysetType.SecretTypeSecret "1".toList =
      Except.ok [] ∧
    FindSecret [] "foo".toList = Except.ok none := by
  exact ⟨rfl, rfl, rfl, rfl, rfl⟩

/-- C9: there are executions in which `GetOrCreateSecret` returns a nil
secret, `created = true` and no error: after a successful create, a re-read
that finds the record absent, or finds it without a primary entry, yields
`loadSecret`'s `(nil, nil)`, which is not treated as a failure. -/
theorem getOrCreateSecret_nil_created_no_error :
    GetOrCreateSecretR rpRereadGone = ⟨none, true, none, false, 1, 1⟩ ∧
    GetOrCreateSecretR rpRereadEmpty = ⟨none, true, none, false, 1, 1⟩ := by
  exact ⟨rfl, rfl⟩

/-- C10: the strict accessor `Secret` never returns a nil secret together
with a nil error: every result is either a secret with no error or no secret
with an error — against any store reply, and against any store state. -/
theorem secret_strict_never_nil_nil (reply : Except GoError Keyset)
    (st : Store) (name : Str) :
    ((∃ s, SecretR reply = (some s, none)) ∨ (∃ e, SecretR reply = (none, some e))) ∧
    ((∃ s, SecretOp st name = (some s, none)) ∨ (∃ e, SecretOp st name = (none, some e))) := by
  constructor
  · rcases h : FindSecretR reply with e | s?
    · exact Or.inr ⟨e, by simp [SecretR, h]⟩
    · rcases s? with _ | s
      · exact Or.inr ⟨.plain "Secret not found", by simp [SecretR, h]⟩
      · exact Or.inl ⟨s, by simp [SecretR, h]⟩
  · rcases h : FindSecret st name with e | s?
    · exact Or.inr ⟨e, by simp [SecretOp, h]⟩
    · rcases s? with _ | s
      · exact Or.inr ⟨.plain "Secret not found", by simp [SecretOp, h]⟩
      · exact Or.inl ⟨s, by simp [SecretOp, h]⟩

/-- C2: when a record with a primary entry already exists for `name`,
`GetOrCreateSecret` returns it with `created = false` and issues no create
call against the store; and once a first call established payload `A`, a
later call with any candidate `B` returns `A`'s payload, `created = false`
and no create call. -/
theorem getOrCreateSecret_idempotent (st : Store) (name : Str) (s A B : Secret)
    (t1 t2 t3 t4 : Int) (r1 r2 r3 r4 : Nat) :
    (FindSecret st name = Except.ok (some s) →
      GetOrCreateSecret st name A t1 r1 t2 r2 = ⟨some s, false, none, false, st, 0⟩) ∧
    ((∀ ks ∈ st, ks.name ≠ NamePrefix ++ name) →
      GetOrCreateSecret st name A t1 r1 t2 r2 =
        ⟨some ⟨A.data⟩, true, none, false, st ++ [newKeyset name A t1 r1], 1⟩ ∧
      GetOrCreateSecret (st ++ [newKeyset name A t1 r1]) name B t3 r3 t4 r4 =
        ⟨some ⟨A.data⟩, false, none, false, st ++ [newKeyset name A t1 r1], 0⟩) := by
  constructor
  · intro h
    simp only [GetOrCreateSecret, h]
  · intro habs
    have hfind : st.find? (fun ks => decide (ks.name = NamePrefix ++ name)) = none := by
      rw [List.find?_eq_none]
      intro x hx
      simpa using habs x hx
    have hany : st.any (fun k => decide (k.name = NamePrefix ++ name)) = false := by
      rw [List.any_eq_false]
      intro x hx
      simpa using habs x hx
    have hf1 : FindSecret st name = Except.ok none := findSecret_of_absent st name hfind
    have hcr : createSecret st A name t1 r1 =
        Except.ok (newKeyset name A t1 r1, st ++ [newKeyset name A t1 r1]) := by
      simp [createSecret, storeCreate, newKeyset, hany]
    have hfind2 : (st ++ [newKeyset name A t1 r1]).find?
        (fun ks => decide (ks.name = NamePrefix ++ name)) = some (newKeyset name A t1 r1) :=
      find?_concat_of_none _ st _ hfind (by simp [newKeyset])
    have hf2 : FindSecret (st ++ [newKeyset name A t1 r1]) name =
        Except.ok (some ⟨A.data⟩) := by
      rw [findSecret_of_found _ _ _ hfind2]
      simp [parseSecret, FindPrimary, newKeyset]
    have hl2 : loadSecret (st ++ [newKeyset name A t1 r1]) name =
        Except.ok (some ⟨A.data⟩) := hf2
    constructor
    · simp only [GetOrCreateSecret, hf1, hcr, gocFinish, hl2]
    · simp only [GetOrCreateSecret, hf2]

/-- C2 witness: on an empty store, establishing `foo ↦ [1, 2]` and then
calling again with candidate `[3, 4]` returns the established payload with
`created = false` and no create call. -/
theorem getOrCreateSecret_idempotent_witness :
    GetOrCreateSecret [] "foo".toList ⟨[1, 2]⟩ 5 7 6 8 =
      ⟨some ⟨[1, 2]⟩, true, none, false, [] ++ [newKeyset "foo".toList ⟨[1, 2]⟩ 5 7], 1⟩ ∧
    GetOrCreateSecret ([] ++ [newKeyset "foo".toList ⟨[1, 2]⟩ 5 7]) "foo".toList
        ⟨[3, 4]⟩ 9 9 9 9 =
      ⟨some ⟨[1, 2]⟩, false, none, false, [] ++ [newKeyset "foo".toList ⟨[1, 2]⟩ 5 7], 0⟩ := by
  exact (getOrCreateSecret_idempotent [] "foo".toList ⟨[1, 2]⟩ ⟨[1, 2]⟩ ⟨[3, 4]⟩
    5 6 9 9 7 8 9 9).2 (by simp)

/-- C4: `FindSecret` is absent without error both when no record exists for
the name and when the record exists without a primary entry, while the
strict `Secret` accessor turns the same two situations into a not-found
error; and `FindSecret` errors only when the underlying store reply is an
error other than not-found. -/
theorem findSecret_absent_vs_strict (st : Store) (name : Str) (ks : Keyset)
    (reply : Except GoError Keyset) (e' : GoError) :
    ((∀ k ∈ st, k.name ≠ NamePrefix ++ name) →
      FindSecret st name = Except.ok none ∧
      SecretOp st name = (none, some (.plain "Secret not found"))) ∧
    (storeGet st (NamePrefix ++ name) = Except.ok ks → FindPrimary ks = none →
      FindSecret st name = Except.ok none ∧
      SecretOp st name = (none, some (.plain "Secret not found"))) ∧
    (FindSecretR reply = Except.error e' →
      ∃ e, reply = Except.error e ∧ isNotFound e = false) := by
  refine ⟨?_, ?_, ?_⟩
  · intro habs
    have hfind : st.find? (fun k => decide (k.name = NamePrefix ++ name)) = none := by
      rw [List.find?_eq_none]
      intro x hx
      simpa using habs x hx
    have hf : FindSecret st name = Except.ok none := findSecret_of_absent st name hfind
    exact ⟨hf, by simp only [SecretOp, hf]⟩
  · intro hget hp
    have hf : FindSecret st name = Except.ok none := by
      simp [FindSecret, loadSecret, hget, loadSecretR, parseSecret, hp]
    exact ⟨hf, by simp only [SecretOp, hf]⟩
  · intro h
    rcases reply with e | k
    · by_cases hn : isNotFound e = true
      · simp [FindSecretR, loadSecretR, hn] at h
      · exact ⟨e, rfl, by simpa using hn⟩
    · simp [FindSecretR, loadSecretR] at h

/-- C4 witness: absence vs error at concrete inputs — an empty store, a
store whose `foo` record has no entries, and a non-not-found store error. -/
theorem findSecret_absent_vs_strict_witness :
    (FindSecret [] "foo".toList = Except.ok none ∧
      SecretOp [] "foo".toList = (none, some (.plain "Secret not found"))) ∧
    (FindSecret [ksEmptyFoo] "foo".toList = Except.ok none ∧
      SecretOp [ksEmptyFoo] "foo".toList = (none, some (.plain "Secret not found"))) ∧
    (∃ e, (Except.error (GoError.plain "boom") : Except GoError Keyset) =
        Except.error e ∧ isNotFound e = false) := by
  refine ⟨(findSecret_absent_vs_strict [] "foo".toList ksFoo (Except.ok ksFoo)
      GoError.apiNotFound).1 (by simp),
    (findSecret_absent_vs_strict [ksEmptyFoo] "foo".toList ksEmptyFoo (Except.ok ksFoo)
      GoError.apiNotFound).2.1 rfl rfl,
    (findSecret_absent_vs_strict [] "foo".toList ksFoo
      (Except.error (GoError.plain "boom")) (GoError.plain "error reading keyset")).2.2 rfl⟩

/-- C5: `ListSecrets` returns exactly the prefix-stripped names of the
secret-typed keysets of the namespace: a name is listed iff some stored
keyset is secret-typed and yields it, so no keypair/cert-typed record
contributes a name. -/
theorem listSecrets_secret_typed_only (st : Store) (n : Str) :
    n ∈ ListSecrets st ↔
      ∃ ks, ks ∈ st ∧ ks.specType = KeysetType.SecretTypeSecret ∧
        n = trimPrefix ks.name NamePrefix := by
  unfold ListSecrets
  rw [List.mem_filterMap]
  constructor
  · rintro ⟨ks, hks, hf⟩
    rcases hty : ks.specType with _ | _
    · rw [hty] at hf
      simp only [Option.some.injEq] at hf
      exact ⟨ks, hks, hty, hf.symm⟩
    · rw [hty] at hf
      simp at hf
  · rintro ⟨ks, hks, hty, hn⟩
    refine ⟨ks, hks, ?_⟩
    rw [hty, hn]

/-- C5 witness: a store holding a secret-typed `token-foo` record and a
keypair-typed record lists exactly the stripped name `foo`. -/
theorem listSecrets_secret_typed_only_witness :
    "foo".toList ∈ ListSecrets [ksFoo, ksKeypair] ∧
    ¬ ("kp-ca".toList ∈ ListSecrets [ksFoo, ksKeypair]) := by
  constructor
  · exact (listSecrets_secret_typed_only [ksFoo, ksKeypair] "foo".toList).mpr
      ⟨ksFoo, by simp, rfl, by decide⟩
  · intro hmem
    rcases (listSecrets_secret_typed_only [ksFoo, ksKeypair] "kp-ca".toList).mp hmem
      with ⟨ks, hks, hty, hn⟩
    simp [ksFoo, ksKeypair] at hks
    rcases hks with h | h <;> rw [h] at hty hn <;> revert hty hn <;> decide

/-- C6: a successful `createSecret` for external name `X` stores the record
under the internal name `token- ++ X`, `loadSecret X` resolves to exactly
that just-written record, and the listed external name is `X` itself — the
internal prefix never leaks. -/
theorem createSecret_prefix_roundtrip (st : Store) (s : Secret) (X : Str)
    (t : Int) (r : Nat) (ks : Keyset) (st' : Store)
    (h : createSecret st s X t r = Except.ok (ks, st')) :
    ks.name = NamePrefix ++ X ∧
    st' = st ++ [ks] ∧
    loadSecret st' X = Except.ok (some ⟨s.data⟩) ∧
    ListSecrets st' = ListSecrets st ++ [X] := by
  unfold createSecret storeCreate at h
  split at h
  · simp at h
  · rename_i hany
    simp only [Except.ok.injEq, Prod.mk.injEq] at h
    obtain ⟨hks, hst⟩ := h
    subst hks
    subst hst
    have hfind : st.find? (fun k => decide (k.name = NamePrefix ++ X)) = none := by
      rw [List.find?_eq_none]
      intro x hx
      have hany' := Bool.eq_false_iff.mpr hany
      have := (List.any_eq_false.mp hany') x hx
      simpa [newKeyset] using this
    have hfind2 : (st ++ [newKeyset X s t r]).find?
        (fun k => decide (k.name = NamePrefix ++ X)) = some (newKeyset X s t r) :=
      find?_concat_of_none _ st _ hfind (by simp [newKeyset])
    refine ⟨by simp [newKeyset], rfl, ?_, ?_⟩
    · have hf := findSecret_of_found (st ++ [newKeyset X s t r]) X _ hfind2
      unfold FindSecret at hf
      rw [hf]
      simp [parseSecret, FindPrimary, newKeyset]
    · unfold ListSecrets
      rw [List.filterMap_append]
      congr 1
      simp [newKeyset, trimPrefix_append]

/-- C6 witness: creating `foo` on an empty store writes `token-foo`, reads
back as `foo` with the written payload, and lists as `foo`. -/
theorem createSecret_prefix_roundtrip_witness :
    (newKeyset "foo".toList ⟨[1, 2]⟩ 5 7).name = NamePrefix ++ "foo".toList ∧
    [newKeyset "foo".toList ⟨[1, 2]⟩ 5 7] = [] ++ [newKeyset "foo".toList ⟨[1, 2]⟩ 5 7] ∧
    loadSecret [newKeyset "foo".toList ⟨[1, 2]⟩ 5 7] "foo".toList =
      Except.ok (some ⟨[1, 2]⟩) ∧
    ListSecrets [newKeyset "foo".toList ⟨[1, 2]⟩ 5 7] = ListSecrets [] ++ ["foo".toList] := by
  exact createSecret_prefix_roundtrip [] ⟨[1, 2]⟩ "foo".toList 5 7
    (newKeyset "foo".toList ⟨[1, 2]⟩ 5 7) [newKeyset "foo".toList ⟨[1, 2]⟩ 5 7] rfl

/-- C8: `createSecret` submits, via the store's create-if-absent primitive,
a record whose name is the prefixed name, whose type discriminator is the
plain-secret type, and whose entry list is exactly one entry holding the
payload under the id obtained by rendering the PKI serial of the
nanosecond timestamp; when the name is taken the primitive refuses with
the already-exists conflict. -/
theorem createSecret_builds_single_entry_record (st : Store) (s : Secret) (name : Str)
    (t : Int) (r : Nat) :
    (st.any (fun k => decide (k.name = NamePrefix ++ name)) = false →
      createSecret st s name t r =
        Except.ok (newKeyset name s t r, st ++ [newKeyset name s t r])) ∧
    (st.any (fun k => decide (k.name = NamePrefix ++ name)) = true →
      createSecret st s name t r = Except.error GoError.apiAlreadyExists) ∧
    newKeyset name s t r =
      ⟨NamePrefix ++ name, KeysetType.SecretTypeSecret,
        [⟨serialString (BuildPKISerial t r), s.data⟩]⟩ := by
  refine ⟨?_, ?_, rfl⟩
  · intro h
    simp [createSecret, storeCreate, newKeyset, h]
  · intro h
    simp [createSecret, storeCreate, newKeyset, h]

/-- C8 witness: creating `foo` on an empty store yields exactly the
single-entry record under `token-foo` with the serial-derived id. -/
theorem createSecret_builds_single_entry_record_witness :
    createSecret [] ⟨[1, 2]⟩ "foo".toList 5 7 =
      Except.ok (newKeyset "foo".toList ⟨[1, 2]⟩ 5 7,
        [] ++ [newKeyset "foo".toList ⟨[1, 2]⟩ 5 7]) := by
  exact (createSecret_builds_single_entry_record [] ⟨[1, 2]⟩ "foo".toList 5 7).1 rfl

/-- C10 witness: the dichotomy evaluated at a concrete reply and store. -/
theorem secret_strict_never_nil_nil_witness :
    ((∃ s, SecretR (Except.error GoError.apiNotFound) = (some s, none)) ∨
      (∃ e, SecretR (Except.error GoError.apiNotFound) = (none, some e))) ∧
    ((∃ s, SecretOp [ksFoo] "foo".toList = (some s, none)) ∨
      (∃ e, SecretOp [ksFoo] "foo".toList = (none, some e))) := by
  exact ⟨(secret_strict_never_nil_nil (Except.error GoError.apiNotFound) [] []).1,
    (secret_strict_never_nil_nil (Except.error GoError.apiNotFound) [ksFoo] "foo".toList).2⟩

end Kops
